import Mathlib

/-!
Shallow embedding of the `interview` repository (two Streamlit apps:
`assessment.py`, an interview-assessment quiz tool, and `dashboard.py`,
a sales dashboard), together with proofs of the specification claims.

DataFrames are modelled as lists of typed rows, dictionaries as
association lists (Python dict semantics: update-in-place for an existing
key, append for a new one), and the per-sheet `try/except` reads as
`Except`/`Option` values supplied by an environment.  The option-line
regular expression of `parse_questions_from_doc` is embedded by a
deterministic matcher whose lazy-group semantics are spelled out below.
-/

namespace Interview

/-! ## String helpers (Python `str.strip`, `str.startswith`) -/

/-- Whitespace class of the regular expression `\s` and of `str.strip()`
for the ASCII range. -/
def isSpaceChar (c : Char) : Bool :=
  c = ' ' || c = '\t' || c = '\n' || c = '\r' || c = '\x0b' || c = '\x0c'

/-- Strip leading and trailing whitespace from a character list. -/
def pyStripList (l : List Char) : List Char :=
  ((l.dropWhile isSpaceChar).reverse.dropWhile isSpaceChar).reverse

/-- Python `text.strip()`. -/
def pyStrip (s : String) : String := ⟨pyStripList s.data⟩

/-- Python `text.startswith(p)`. -/
def strStartsWith (s p : String) : Bool := p.data.isPrefixOf s.data

/-! ## Data model: questions (`questions.xlsx` rows, canonical schema) -/

/-- One row of a question sheet in the canonical column layout
`ID, Bank, Question, Option_A, Score_A, ..., Option_D, Score_D`. -/
structure Question where
  ID : Int
  Bank : String
  Question : String
  Option_A : String
  Score_A : Int
  Option_B : String
  Score_B : Int
  Option_C : String
  Score_C : Int
  Option_D : String
  Score_D : Int
deriving DecidableEq, Repr

/-- The fixed bank names `BANK_NAMES = ["题库一", "题库二", "题库三"]`
(assessment.py line 45). -/
def BANK_NAMES : List String := ["题库一", "题库二", "题库三"]

/-! ## Option-line parsing (assessment.py lines 134–154)

The source applies
`re.match(r'^([A-D])[\.、]\s*(.+?)(?:（(\d+)分）|\((\d+)分\)|（(\d+)）|\((\d+)\))?\s*$', text)`.
The lazy group `(.+?)` makes the engine pick the shortest non-empty body
after which the rest of the line is one bracketed value (one of the four
alternatives, tried in order) followed by whitespace, or whitespace only.
The four bracket alternatives are mutually exclusive on any fixed tail
(they are distinguished by the opening bracket character and by whether
`分` follows the digits), so a first-match sequential matcher is exact. -/

/-- Numeric value of a digit string, as `int()` of a `\d+` group. -/
def digitsToNat (ds : List Char) : Nat :=
  ds.foldl (fun n c => n * 10 + (c.toNat - '0'.toNat)) 0

/-- Match one bracket alternative `openC \d+ [分] closeC` at the head of
`t`; return the digits' value and the remaining characters. -/
def matchBracket (openC closeC : Char) (fen : Bool) (t : List Char) :
    Option (Nat × List Char) :=
  match t with
  | [] => none
  | c :: rest =>
    if c = openC then
      let ds := rest.takeWhile Char.isDigit
      let rest2 := rest.dropWhile Char.isDigit
      if ds = [] then none
      else
        match (if fen then
                 match rest2 with
                 | f :: r => if f = '分' then some r else none
                 | [] => none
               else some rest2) with
        | some (c2 :: r2) => if c2 = closeC then some (digitsToNat ds, r2) else none
        | _ => none
    else none

/-- The four alternatives `（N分） | (N分) | （N） | (N)`, tried in the
order of the source regular expression. -/
def firstBracket (t : List Char) : Option (Nat × List Char) :=
  match matchBracket '（' '）' true t with
  | some r => some r
  | none =>
    match matchBracket '(' ')' true t with
    | some r => some r
    | none =>
      match matchBracket '（' '）' false t with
      | some r => some r
      | none => matchBracket '(' ')' false t

/-- Does `l` consist of whitespace only (the pattern `\s*$`)? -/
def spacesOnly (l : List Char) : Bool := l.all isSpaceChar

/-- Can `t` complete the line after the lazy body group?  `some (some n)`
when `t` is a bracketed value `n` followed by whitespace, `some none`
when `t` is whitespace only (absent optional group), `none` otherwise. -/
def tailScore (t : List Char) : Option (Option Nat) :=
  match firstBracket t with
  | some (n, rest) => if spacesOnly rest then some (some n) else none
  | none => if spacesOnly t then some none else none

/-- Lazy search for the shortest non-empty body group: consume one
character at a time and stop as soon as the rest of the line can complete
the match.  Returns the body and the optional bracketed value (the first
non-`None` value group, or `none` when the optional group is absent). -/
def findBody (acc : List Char) : List Char → Option (List Char × Option Nat)
  | [] => none
  | c :: rest =>
    match tailScore rest with
    | some sc => some (acc ++ [c], sc)
    | none => findBody (acc ++ [c]) rest

/-- Outcome of the source's option-line handling (lines 137–149). The
regular expression may fail to match (`noMatch`: nothing is recorded and
the loop continues); it may match with one of the four value groups
present (`parsed`); or it may match with groups 3–6 all `None` — then
the score loop `for i in range(3, 8)` runs past the pattern's six
capturing groups and `match.group(7)` raises `IndexError` outside the
inner `try`, aborting the whole document parse (`indexError`). -/
inductive OptionLineResult where
  | noMatch
  | indexError
  | parsed (letter : Char) (text : List Char) (score : Nat)
deriving DecidableEq, Repr

/-- Embedding of the full option regular expression applied to a stripped
line, together with the group-extraction code that follows it: letter
`A`–`D`, separator `.` or `、`, optional whitespace, lazy body, optional
bracketed value, trailing whitespace.  When everything after the
separator is whitespace, the regex backtracks `\s*` and the body captures
whitespace which `strip()` then empties.  A match with a bracketed value
yields the letter, `match.group(2).strip()` and the value; a match
without one reaches `match.group(7)` and raises. -/
def parseOptionChars (text : List Char) : OptionLineResult :=
  match text with
  | c :: s :: rest =>
    if (c = 'A' || c = 'B' || c = 'C' || c = 'D') && (s = '.' || s = '、') then
      let rem := rest.dropWhile isSpaceChar
      match rem with
      | [] => if rest = [] then .noMatch else .indexError
      | _ :: _ =>
        match findBody [] rem with
        | some (body, some score) => .parsed c (pyStripList body) score
        | some (_, none) => .indexError
        | none => .noMatch
    else .noMatch
  | _ => .noMatch

/-- Option-line parsing on strings. -/
def parseOptionLine (text : String) : OptionLineResult :=
  parseOptionChars text.data

/-! ## Document importer (`parse_questions_from_doc`, lines 85–163) -/

/-- One paragraph of the source document: its style name and its text. -/
structure Para where
  style : String
  text : String
deriving DecidableEq, Repr

/-- The tuple of option-letter heads used by the fallback question
heuristic `text.startswith(('A.', ..., 'D、'))`. -/
def optionHeads : List String := ["A.", "B.", "C.", "D.", "A、", "B、", "C、", "D、"]

/-- Classification of a (stripped, non-empty) paragraph as a new question:
`Heading 1` style, or more than 10 characters not starting with an
option-letter head (line 112). -/
def isQuestionText (style text : String) : Bool :=
  strStartsWith style "Heading 1" ||
    (decide (10 < text.length) && !(optionHeads.any fun p => strStartsWith text p))

/-- Leading `[A-D][\.、]` test (`re.match(r'^[A-D][\.、]\s*', text)`,
line 134): the `\s*` part imposes nothing. -/
def hasOptionHead : List Char → Bool
  | c :: s :: _ => (c = 'A' || c = 'B' || c = 'C' || c = 'D') && (s = '.' || s = '、')
  | _ => false

/-- Classification of a paragraph as an option: `Heading 2` style or an
option-letter head (line 134). -/
def isOptionText (style text : String) : Bool :=
  strStartsWith style "Heading 2" || hasOptionHead text.data

/-- Fresh question accumulator created at a question paragraph
(lines 118–130). -/
def newQuestion (id : Int) (bank text : String) : Question :=
  { ID := id, Bank := bank, Question := text,
    Option_A := "", Score_A := 0, Option_B := "", Score_B := 0,
    Option_C := "", Score_C := 0, Option_D := "", Score_D := 0 }

/-- Write one parsed option into the accumulator (lines 151–153). -/
def setOpt (q : Question) (letter : Char) (txt : String) (score : Nat) : Question :=
  if letter = 'A' then { q with Option_A := txt, Score_A := (score : Int) }
  else if letter = 'B' then { q with Option_B := txt, Score_B := (score : Int) }
  else if letter = 'C' then { q with Option_C := txt, Score_C := (score : Int) }
  else if letter = 'D' then { q with Option_D := txt, Score_D := (score : Int) }
  else q

/-- Loop state of the importer: flushed questions, current accumulator,
and the number of option paragraphs collected for it. -/
structure DocState where
  questions : List Question
  current : Option Question
  optionCount : Nat
deriving DecidableEq, Repr

/-- Flush of the accumulator, used both when a new question starts and at
the end of the document: kept only with at least 4 collected options
(lines 114–115 and 157–158). -/
def flushIfComplete (st : DocState) : List Question :=
  match st.current with
  | some cq => if 4 ≤ st.optionCount then st.questions ++ [cq] else st.questions
  | none => st.questions

/-- One iteration of the paragraph loop (lines 104–154).  An option line
that matches the pattern but carries no bracketed value raises
`IndexError` out of the loop (`Except.error`). -/
def docStep (bank : String) (st : DocState) (para : Para) : Except Unit DocState :=
  let text := pyStrip para.text
  if text = "" then .ok st
  else if isQuestionText para.style text then
    let qs := flushIfComplete st
    .ok { questions := qs,
          current := some (newQuestion ((qs.length : Int) + 1) bank text),
          optionCount := 0 }
  else if isOptionText para.style text then
    match st.current with
    | some cq =>
      match parseOptionLine text with
      | .parsed letter otext score =>
        .ok { st with current := some (setOpt cq letter ⟨otext⟩ score),
                      optionCount := st.optionCount + 1 }
      | .indexError => .error ()
      | .noMatch => .ok st
    | none => .ok st
  else .ok st

/-- The paragraph loop itself: stop at the first raised exception. -/
def docFold (bank : String) : DocState → List Para → Except Unit DocState
  | st, [] => .ok st
  | st, p :: rest =>
    match docStep bank st p with
    | .ok st2 => docFold bank st2 rest
    | .error e => .error e

/-- Whole-document import (lines 98–163): fold the paragraph loop and
flush the last accumulator; any exception reaches the outer
`try/except`, which returns the empty list for the whole document. -/
def parse_questions_from_doc (paras : List Para) (bank : String) : List Question :=
  match docFold bank ⟨[], none, 0⟩ paras with
  | .ok st => flushIfComplete st
  | .error _ => []

/-! ## Bank loading and normalization (`load_questions`, lines 279–337) -/

/-- One row of a sheet in the legacy localized column layout: `题目` is
the marker column, the option/score columns are optional
(`row.get("选项1", "")`, `row.get("分值1", 0)`). -/
structure LegacyRow where
  «题目» : String
  «选项1» : Option String
  «分值1» : Option Int
  «选项2» : Option String
  «分值2» : Option Int
  «选项3» : Option String
  «分值3» : Option Int
  «选项4» : Option String
  «分值4» : Option Int
deriving DecidableEq, Repr

/-- A sheet as read from the workbook: either in the legacy layout
(detected by the `题目` column) or already canonical. -/
inductive DF where
  | legacy (rows : List LegacyRow)
  | canon (rows : List Question)
deriving DecidableEq, Repr

/-- Conversion of one legacy row at positional index `idx`
(lines 288–302): `ID = idx + 1`, missing option columns default to the
empty string, missing score columns to 0. -/
def legacyRowToQuestion (idx : Nat) (bank : String) (r : LegacyRow) : Question :=
  { ID := (idx : Int) + 1, Bank := bank, Question := r.«题目»,
    Option_A := (r.«选项1»).getD "", Score_A := (r.«分值1»).getD 0,
    Option_B := (r.«选项2»).getD "", Score_B := (r.«分值2»).getD 0,
    Option_C := (r.«选项3»).getD "", Score_C := (r.«分值3»).getD 0,
    Option_D := (r.«选项4»).getD "", Score_D := (r.«分值4»).getD 0 }

/-- The `for idx, row in df.iterrows()` loop over legacy rows; a freshly
read sheet carries the positional range index. -/
def normalizeLegacy (bank : String) : Nat → List LegacyRow → List Question
  | _, [] => []
  | idx, r :: rest => legacyRowToQuestion idx bank r :: normalizeLegacy bank (idx + 1) rest

/-- `normalize_df` (lines 283–304): convert a legacy sheet, pass a
canonical sheet through unchanged. -/
def normalize_df (df : DF) (bank : String) : List Question :=
  match df with
  | .legacy rows => normalizeLegacy bank 0 rows
  | .canon rows => rows

/-- Reading environment: the workbook's sheet-name listing and the
per-sheet read, each of which may fail (`try/except`, missing sheet or
corrupt file). -/
structure Env where
  sheetNamesResult : Except Unit (List String)
  readSheet : String → Except Unit DF

/-- `load_questions(bank_name)` for a single bank (lines 306–311): a
failed read yields the empty frame. -/
def load_questions (env : Env) (bank : String) : List Question :=
  match env.readSheet bank with
  | .ok df => normalize_df df bank
  | .error _ => []

/-- `load_questions()` over all banks (lines 312–337): sheet listing
falls back to `BANK_NAMES` on failure; a failing sheet is skipped by the
`except: continue`; an empty normalized sheet contributes nothing to the
concatenation. -/
def load_questions_all (env : Env) : List Question :=
  let sheet_names := match env.sheetNamesResult with
    | .ok ns => ns
    | .error _ => BANK_NAMES
  (sheet_names.map fun bank =>
    match env.readSheet bank with
    | .ok df => normalize_df df bank
    | .error _ => []).flatten

/-! ## Saving a bank (`save_questions`, lines 340–356) -/

/-- Python dict assignment on an association list: update in place when
the key exists, append otherwise. -/
def assocSet (m : List (String × DF)) (k : String) (v : DF) : List (String × DF) :=
  match m with
  | [] => [(k, v)]
  | (k2, v2) :: rest => if k2 = k then (k2, v) :: rest else (k2, v2) :: assocSet rest k v

/-- A workbook: named sheets in file order. -/
abbrev Workbook := List (String × DF)

/-- Per-sheet read from a workbook; `none` models the `except` branch
(missing sheet). -/
def readSheetWb (wb : Workbook) (name : String) : Option DF := wb.lookup name

/-- `save_questions(df, bank_name)`: re-read the three fixed banks
(empty frame on failure), overwrite the selected one, and rewrite the
whole workbook with exactly those sheets in dict order. -/
def save_questions (wb : Workbook) (df : DF) (bank_name : String) : Workbook :=
  assocSet (BANK_NAMES.map fun bank => (bank, (readSheetWb wb bank).getD (DF.canon []))) bank_name df

/-! ## Scoring and submission (`candidate_view`, lines 437–467) -/

/-- One radio choice; the widget offers exactly the letters A–D. -/
inductive Choice
  | A
  | B
  | C
  | D
deriving DecidableEq, Repr

/-- Score bound to the chosen letter, `row[f"Score_{choice}"]`. -/
def scoreOf (q : Question) : Choice → Int
  | .A => q.Score_A
  | .B => q.Score_B
  | .C => q.Score_C
  | .D => q.Score_D

/-- Python dict accumulation `bank_scores[bank] = bank_scores.get(bank, 0) + score`
on an association list. -/
def updateBankScores (m : List (String × Int)) (b : String) (s : Int) : List (String × Int) :=
  match m with
  | [] => [(b, s)]
  | (k, v) :: rest => if k = b then (k, v + s) :: rest else (k, v) :: updateBankScores rest b s

/-- The scoring loop (lines 443–457): enumerate the answer list; an
index beyond the question list is skipped; otherwise add the chosen
letter's score to the running total and to the per-bank subtotal. -/
def scoreLoop (qs : List Question) : Nat → List (String × Choice) →
    Int × List (String × Int) → Int × List (String × Int)
  | _, [], acc => acc
  | idx, (_, choice) :: rest, (total, bs) =>
    if h : idx < qs.length then
      scoreLoop qs (idx + 1) rest
        (total + scoreOf (qs.get ⟨idx, h⟩) choice,
         updateBankScores bs (qs.get ⟨idx, h⟩).Bank (scoreOf (qs.get ⟨idx, h⟩) choice))
    else
      scoreLoop qs (idx + 1) rest (total, bs)

/-- Total score and per-bank breakdown of a submission. -/
def computeScores (answers : List (String × Choice)) (qs : List Question) :
    Int × List (String × Int) :=
  scoreLoop qs 0 answers (0, [])

/-- One row of `results.xlsx`; `Details` keeps the breakdown mapping that
the source serializes with `str()`. -/
structure ResultRow where
  Timestamp : String
  Name : String
  Phone : String
  Total_Score : Int
  Details : List (String × Int)
  Bank : String
deriving DecidableEq, Repr

/-- The `new_row` dict built at lines 459–466. -/
def submittedRow (now name phone : String) (answers : List (String × Choice))
    (qs : List Question) : ResultRow :=
  let r := computeScores answers qs
  { Timestamp := now, Name := pyStrip name, Phone := pyStrip phone,
    Total_Score := r.1, Details := r.2,
    Bank := String.intercalate ", " (r.2.map Prod.fst) }

/-- The submit branch (lines 437–467): reject when the trimmed name or
phone is empty (results untouched, `false`); otherwise `save_result`
appends exactly the one new row (lines 366–370 concatenate the loaded
results with the new row and write them back). -/
def candidateSubmit (now name phone : String) (answers : List (String × Choice))
    (qs : List Question) (results : List ResultRow) : List ResultRow × Bool :=
  if pyStrip name = "" ∨ pyStrip phone = "" then (results, false)
  else (results ++ [submittedRow now name phone answers qs], true)

/-! ## Session-pinned shuffle (`candidate_view`, lines 404–410) -/

/-- The slice of `st.session_state` used by the shuffle pinning. -/
structure Sess where
  shuffled_questions : Option (List Question)
  current_bank : Option String
deriving DecidableEq, Repr

/-- Lines 406–410: shuffle (`sample(frac=1)`, supplied here as the
`sampled` argument) only when no order is pinned yet or the bank changed;
otherwise return the pinned order unchanged. -/
def pinShuffledOrder (sess : Sess) (bank : String) (sampled : List Question) :
    Sess × List Question :=
  if sess.shuffled_questions = none ∨ sess.current_bank ≠ some bank then
    ({ shuffled_questions := some sampled, current_bank := some bank }, sampled)
  else
    (sess, sess.shuffled_questions.getD [])

/-! ## Sales dashboard (`dashboard.py`) -/

/-- One transaction row of `sales_data.xlsx`; the date is kept abstract
as an integer ordinal. -/
structure SalesRecord where
  «销售日期» : Int
  «所属部门» : String
  «单价» : Int
  «数量» : Int
deriving DecidableEq, Repr

/-- The derived revenue column `df['总销售额'] = df['单价'] * df['数量']`
(dashboard.py line 22). -/
def «总销售额» (r : SalesRecord) : Int := r.«单价» * r.«数量»

/-- KPI `total_sales = filtered_df['总销售额'].sum()` (line 76). -/
def total_sales (df : List SalesRecord) : Int := (df.map «总销售额»).sum

/-- Revenue subtotal of one department within the filtered frame. -/
def deptRevenue (df : List SalesRecord) (d : String) : Int :=
  ((df.filter fun r => r.«所属部门» = d).map «总销售额»).sum

/-- Lexicographic code-point comparison of character lists, the ordering
pandas uses when sorting string group keys. -/
def charsLe : List Char → List Char → Bool
  | [], _ => true
  | _ :: _, [] => false
  | c :: cs, d :: ds =>
    if c.toNat < d.toNat then true
    else if d.toNat < c.toNat then false
    else charsLe cs ds

/-- String ordering by code points. -/
def strLe (a b : String) : Bool := charsLe a.data b.data

/-- Insertion into a sorted key list (pandas `groupby` sorts group keys). -/
def insertSorted (s : String) : List String → List String
  | [] => [s]
  | t :: rest => if strLe s t then s :: t :: rest else t :: insertSorted s rest

/-- Sort the group keys ascending. -/
def sortStrings : List String → List String
  | [] => []
  | s :: rest => insertSorted s (sortStrings rest)

/-- `department_sales = filtered_df.groupby('所属部门')['总销售额'].sum()`
(line 114): one group per distinct department, keys sorted, each group
value the sum of the derived revenue within the group. -/
def department_sales (df : List SalesRecord) : List (String × Int) :=
  (sortStrings (df.map fun r => r.«所属部门»).dedup).map fun d => (d, deptRevenue df d)

/-! ## Derived forms used by the statements -/

/-- Score contributed by one positionally matched (answer, question)
pair. -/
def pairScore (p : (String × Choice) × Question) : Int := scoreOf p.2 p.1.2

/-- Sum of the chosen letters' scores over positionally matched pairs. -/
def sumScores (l : List ((String × Choice) × Question)) : Int := (l.map pairScore).sum

/-- Sum of the values of a per-bank breakdown mapping. -/
def sumValues (m : List (String × Int)) : Int := (m.map Prod.snd).sum

/-- Closed form of the per-bank accumulation over matched pairs. -/
def bankFold (bs : List (String × Int)) (l : List ((String × Choice) × Question)) :
    List (String × Int) :=
  l.foldl (fun m p => updateBankScores m p.2.Bank (pairScore p)) bs

/-- Modelled from the spec: the canonical-layout bank equivalent to a
legacy sheet — the same questions in the same order, positional ids
starting at 1, missing optional legacy columns defaulted to the empty
string for option text and zero for score. -/
def specCanonicalOfLegacy (bank : String) (rows : List LegacyRow) : List Question :=
  rows.enum.map fun p =>
    { ID := (p.1 : Int) + 1, Bank := bank, Question := p.2.«题目»,
      Option_A := (p.2.«选项1»).getD "", Score_A := (p.2.«分值1»).getD 0,
      Option_B := (p.2.«选项2»).getD "", Score_B := (p.2.«分值2»).getD 0,
      Option_C := (p.2.«选项3»).getD "", Score_C := (p.2.«分值3»).getD 0,
      Option_D := (p.2.«选项4»).getD "", Score_D := (p.2.«分值4»).getD 0 }

/-- Bracket notation `（N分）`. -/
def fwFenBracket (ds : List Char) : List Char := '（' :: ds ++ ['分', '）']

/-- Bracket notation `(N分)`. -/
def asFenBracket (ds : List Char) : List Char := '(' :: ds ++ ['分', ')']

/-- Bracket notation `（N）`. -/
def fwBracket (ds : List Char) : List Char := '（' :: ds ++ ['）']

/-- Bracket notation `(N)`. -/
def asBracket (ds : List Char) : List Char := '(' :: ds ++ [')']

/-- Does a paragraph start a new question block in the importer loop? -/
def startsNewQuestion (p : Para) : Bool :=
  decide (pyStrip p.text ≠ "") && isQuestionText p.style (pyStrip p.text)

/-- Concrete document whose option lines all carry bracketed values (so
no line raises): a first question block with only 3 option paragraphs, a
second with exactly 4. -/
def docExample : List Para :=
  [⟨"Heading 1", "第一道题目完整题干文字说明"⟩,
   ⟨"", "A. 甲（5分）"⟩, ⟨"", "B. 乙（3分）"⟩, ⟨"", "C. 丙（2分）"⟩,
   ⟨"Heading 1", "第二道题目完整题干文字说明"⟩,
   ⟨"", "A. 子（5分）"⟩, ⟨"", "B. 丑(3分)"⟩, ⟨"", "C. 寅（2）"⟩, ⟨"", "D. 卯（1）"⟩]

/-- The single question the importer keeps from `docExample`. -/
def docExampleQuestion : Question :=
  { ID := 1, Bank := "题库一", Question := "第二道题目完整题干文字说明",
    Option_A := "子", Score_A := 5, Option_B := "丑", Score_B := 3,
    Option_C := "寅", Score_C := 2, Option_D := "卯", Score_D := 1 }

/-- Concrete document holding one complete block: a question followed by
exactly 4 bracketed option paragraphs. -/
def docAbortPrefix : List Para :=
  [⟨"Heading 1", "第一道题目完整题干文字说明"⟩,
   ⟨"", "A. 甲（5分）"⟩, ⟨"", "B. 乙（3分）"⟩, ⟨"", "C. 丙（2分）"⟩, ⟨"", "D. 丁（1分）"⟩]

/-- The question imported from `docAbortPrefix` alone. -/
def docAbortQuestion : Question :=
  { ID := 1, Bank := "题库一", Question := "第一道题目完整题干文字说明",
    Option_A := "甲", Score_A := 5, Option_B := "乙", Score_B := 3,
    Option_C := "丙", Score_C := 2, Option_D := "丁", Score_D := 1 }

/-- The same document extended by a second block whose option line
`A. 方案三` carries no bracketed value: that line raises `IndexError`
and the whole import returns the empty list. -/
def docAbortExample : List Para :=
  docAbortPrefix ++
    [⟨"Heading 1", "第二道题目完整题干文字说明"⟩, ⟨"", "A. 方案三"⟩]

/-! ## Helper lemmas: the scoring loop in closed form -/

theorem scoreLoop_eq (qs : List Question) (ans : List (String × Choice)) :
    ∀ (idx : Nat) (t : Int) (bs : List (String × Int)),
      scoreLoop qs idx ans (t, bs) =
        (t + sumScores (ans.zip (qs.drop idx)), bankFold bs (ans.zip (qs.drop idx))) := by
  induction ans with
  | nil => intro idx t bs; simp [scoreLoop, sumScores, bankFold]
  | cons a rest ih =>
    intro idx t bs
    obtain ⟨qid, choice⟩ := a
    by_cases h : idx < qs.length
    · rw [List.drop_eq_getElem_cons h]
      simp only [scoreLoop, dif_pos h, List.zip_cons_cons]
      rw [ih]
      simp [sumScores, bankFold, pairScore, add_assoc]
    · have hlen : qs.length ≤ idx := Nat.le_of_not_lt h
      have hdrop : qs.drop idx = [] := List.drop_eq_nil_of_le hlen
      have hdrop1 : qs.drop (idx + 1) = [] :=
        List.drop_eq_nil_of_le (Nat.le_succ_of_le hlen)
      simp only [scoreLoop, dif_neg h]
      rw [ih, hdrop, hdrop1]
      simp [sumScores, bankFold]

theorem sumValues_update (b : String) (s : Int) :
    ∀ m : List (String × Int), sumValues (updateBankScores m b s) = sumValues m + s := by
  intro m
  induction m with
  | nil => simp [updateBankScores, sumValues]
  | cons kv rest ih =>
    obtain ⟨k, v⟩ := kv
    by_cases h : k = b
    · simp only [updateBankScores, if_pos h, sumValues, List.map_cons, List.sum_cons]
      simp [sumValues] at ih ⊢
      ring
    · simp only [updateBankScores, if_neg h, sumValues, List.map_cons, List.sum_cons]
      simp [sumValues] at ih ⊢
      rw [ih]
      ring

theorem sumValues_bankFold (l : List ((String × Choice) × Question)) :
    ∀ bs, sumValues (bankFold bs l) = sumValues bs + sumScores l := by
  induction l with
  | nil => intro bs; simp [bankFold, sumScores]
  | cons p rest ih =>
    intro bs
    have hstep : bankFold bs (p :: rest) =
        bankFold (updateBankScores bs p.2.Bank (pairScore p)) rest := rfl
    rw [hstep, ih, sumValues_update]
    simp [sumScores]
    ring

theorem zip_take_len {α β : Type} : ∀ (l2 : List β) (l1 : List α),
    (l1.take l2.length).zip l2 = l1.zip l2
  | [], l1 => by simp
  | _ :: _, [] => by simp
  | b :: bs, a :: rest => by simp [zip_take_len bs rest]

/-! ## Claim C1 -/

/-- C1: for every accepted submission (non-empty trimmed name and phone)
the persisted `Total_Score` equals the sum, over the positionally matched
(answer, question) pairs, of the score bound to the chosen letter, and
the values of the per-bank breakdown mapping sum to exactly that total;
the row is appended to the results store. -/
theorem c1_total_and_breakdown (now name phone : String)
    (answers : List (String × Choice)) (qs : List Question) (results : List ResultRow)
    (hname : pyStrip name ≠ "") (hphone : pyStrip phone ≠ "") :
    candidateSubmit now name phone answers qs results =
      (results ++ [submittedRow now name phone answers qs], true) ∧
    (submittedRow now name phone answers qs).Total_Score = sumScores (answers.zip qs) ∧
    sumValues (submittedRow now name phone answers qs).Details =
      (submittedRow now name phone answers qs).Total_Score := by
  refine ⟨by simp [candidateSubmit, hname, hphone], ?_, ?_⟩
  · simp [submittedRow, computeScores, scoreLoop_eq qs answers 0 0 []]
  · simp [submittedRow, computeScores, scoreLoop_eq qs answers 0 0 [],
      sumValues_bankFold]
    simp [sumValues]

/-- Witness for C1 at a concrete submission. -/
theorem c1_total_and_breakdown_witness :
    candidateSubmit "2024-01-01 10:00:00" "张三" "13900000000"
        [("题库一_1", Choice.A), ("题库一_2", Choice.B)]
        [newQuestion 1 "题库一" "第一题", newQuestion 2 "题库一" "第二题"] [] =
      ([submittedRow "2024-01-01 10:00:00" "张三" "13900000000"
          [("题库一_1", Choice.A), ("题库一_2", Choice.B)]
          [newQuestion 1 "题库一" "第一题", newQuestion 2 "题库一" "第二题"]], true) ∧
    (submittedRow "2024-01-01 10:00:00" "张三" "13900000000"
        [("题库一_1", Choice.A), ("题库一_2", Choice.B)]
        [newQuestion 1 "题库一" "第一题", newQuestion 2 "题库一" "第二题"]).Total_Score =
      sumScores ([("题库一_1", Choice.A), ("题库一_2", Choice.B)].zip
        [newQuestion 1 "题库一" "第一题", newQuestion 2 "题库一" "第二题"]) ∧
    sumValues (submittedRow "2024-01-01 10:00:00" "张三" "13900000000"
        [("题库一_1", Choice.A), ("题库一_2", Choice.B)]
        [newQuestion 1 "题库一" "第一题", newQuestion 2 "题库一" "第二题"]).Details =
      (submittedRow "2024-01-01 10:00:00" "张三" "13900000000"
        [("题库一_1", Choice.A), ("题库一_2", Choice.B)]
        [newQuestion 1 "题库一" "第一题", newQuestion 2 "题库一" "第二题"]).Total_Score := by
  have h := c1_total_and_breakdown "2024-01-01 10:00:00" "张三" "13900000000"
    [("题库一_1", Choice.A), ("题库一_2", Choice.B)]
    [newQuestion 1 "题库一" "第一题", newQuestion 2 "题库一" "第二题"] []
    (by decide) (by decide)
  simpa using h

/-! ## Claim C9 -/

/-- C9: when the answers mapping has more entries than the session's
loaded question list, the extra answers are ignored: the computed total
and breakdown equal those of the answer list truncated to the number of
loaded questions, so each answer at position `idx` contributes only when
`idx` is below the number of loaded questions. -/
theorem c9_extra_answers_ignored (answers : List (String × Choice)) (qs : List Question) :
    computeScores answers qs = computeScores (answers.take qs.length) qs := by
  simp [computeScores, scoreLoop_eq, zip_take_len qs answers]

/-! ## Claim C7 -/

/-- C7: a submission whose trimmed name or phone is empty is rejected and
the results store is unchanged; an accepted submission appends exactly
one row while preserving all previously stored rows. -/
theorem c7_validation_and_append (now name phone : String)
    (answers : List (String × Choice)) (qs : List Question) (results : List ResultRow) :
    (pyStrip name = "" ∨ pyStrip phone = "" →
      candidateSubmit now name phone answers qs results = (results, false)) ∧
    (pyStrip name ≠ "" → pyStrip phone ≠ "" →
      candidateSubmit now name phone answers qs results =
        (results ++ [submittedRow now name phone answers qs], true)) := by
  constructor
  · intro h; simp [candidateSubmit, h]
  · intro h1 h2; simp [candidateSubmit, h1, h2]

/-- Witness for C7: an all-whitespace name is rejected without touching
the stored rows; a real name and phone append exactly one row. -/
theorem c7_validation_and_append_witness :
    candidateSubmit "t" "  " "13900000000" [] []
        [submittedRow "s" "李四" "138" [] []] =
      ([submittedRow "s" "李四" "138" [] []], false) ∧
    candidateSubmit "t" "张三" "13900000000" [] []
        [submittedRow "s" "李四" "138" [] []] =
      ([submittedRow "s" "李四" "138" [] []] ++
        [submittedRow "t" "张三" "13900000000" [] []], true) := by
  exact ⟨(c7_validation_and_append "t" "  " "13900000000" [] []
      [submittedRow "s" "李四" "138" [] []]).1 (Or.inl (by decide)),
    (c7_validation_and_append "t" "张三" "13900000000" [] []
      [submittedRow "s" "李四" "138" [] []]).2 (by decide) (by decide)⟩

/-! ## Claim C5 -/

/-- C5: the order pinned for the session is a permutation of the loaded
bank's questions (same multiset of ids, nothing added or dropped), and
re-running the handler within the same session returns the pinned order
unchanged — a fresh shuffle result passed on the re-run is ignored. -/
theorem c5_shuffle_perm_and_stable (sess0 : Sess) (bank : String)
    (qs sampled sampled2 : List Question)
    (hfresh : sess0.shuffled_questions = none)
    (hperm : List.Perm sampled qs) :
    List.Perm (pinShuffledOrder sess0 bank sampled).2 qs ∧
    List.Perm ((pinShuffledOrder sess0 bank sampled).2.map Question.ID)
      (qs.map Question.ID) ∧
    pinShuffledOrder (pinShuffledOrder sess0 bank sampled).1 bank sampled2 =
      pinShuffledOrder sess0 bank sampled := by
  have h1 : pinShuffledOrder sess0 bank sampled =
      ({ shuffled_questions := some sampled, current_bank := some bank }, sampled) := by
    simp [pinShuffledOrder, hfresh]
  refine ⟨?_, ?_, ?_⟩
  · rw [h1]; exact hperm
  · rw [h1]; exact hperm.map _
  · rw [h1]; simp [pinShuffledOrder]

/-- Witness for C5 at a concrete two-question bank. -/
theorem c5_shuffle_perm_and_stable_witness :
    List.Perm (pinShuffledOrder ⟨none, none⟩ "题库一"
        [newQuestion 2 "题库一" "乙", newQuestion 1 "题库一" "甲"]).2
      [newQuestion 1 "题库一" "甲", newQuestion 2 "题库一" "乙"] ∧
    List.Perm ((pinShuffledOrder ⟨none, none⟩ "题库一"
        [newQuestion 2 "题库一" "乙", newQuestion 1 "题库一" "甲"]).2.map Question.ID)
      ([newQuestion 1 "题库一" "甲", newQuestion 2 "题库一" "乙"].map Question.ID) ∧
    pinShuffledOrder (pinShuffledOrder ⟨none, none⟩ "题库一"
        [newQuestion 2 "题库一" "乙", newQuestion 1 "题库一" "甲"]).1 "题库一"
        [newQuestion 1 "题库一" "甲", newQuestion 2 "题库一" "乙"] =
      pinShuffledOrder ⟨none, none⟩ "题库一"
        [newQuestion 2 "题库一" "乙", newQuestion 1 "题库一" "甲"] :=
  c5_shuffle_perm_and_stable ⟨none, none⟩ "题库一"
    [newQuestion 1 "题库一" "甲", newQuestion 2 "题库一" "乙"]
    [newQuestion 2 "题库一" "乙", newQuestion 1 "题库一" "甲"]
    [newQuestion 1 "题库一" "甲", newQuestion 2 "题库一" "乙"]
    rfl (by decide)

/-! ## Claim C4 -/

theorem normalizeLegacy_eq_enumFrom (bank : String) (rows : List LegacyRow) :
    ∀ idx : Nat,
      normalizeLegacy bank idx rows =
        (rows.enumFrom idx).map fun p => legacyRowToQuestion p.1 bank p.2 := by
  induction rows with
  | nil => intro idx; rfl
  | cons r rest ih =>
    intro idx
    simp [normalizeLegacy, List.enumFrom, ih (idx + 1)]

/-- C4: loading a sheet in the legacy localized column layout produces
exactly the normalized output of loading the equivalent canonical-layout
bank (which `normalize_df` passes through unchanged), with missing
optional legacy columns defaulting to the empty string for option text
and zero for score. -/
theorem c4_legacy_canonical_equivalence (bank : String) (rows : List LegacyRow) :
    normalize_df (DF.legacy rows) bank =
      normalize_df (DF.canon (specCanonicalOfLegacy bank rows)) bank := by
  show normalizeLegacy bank 0 rows = specCanonicalOfLegacy bank rows
  rw [normalizeLegacy_eq_enumFrom bank rows 0]
  rfl

/-! ## Claim C6 -/

/-- C6: a failed per-bank read yields the empty collection instead of
raising, and in the all-banks load a failing sheet is skipped while every
other bank's contribution is still returned. -/
theorem c6_failed_sheet_skipped (env : Env) (bank : String) (pre post : List String)
    (h1 : env.readSheet bank = .error ())
    (h2 : env.sheetNamesResult = .ok (pre ++ bank :: post)) :
    load_questions env bank = [] ∧
    load_questions_all env =
      ((pre.map fun b => load_questions env b).flatten ++
        (post.map fun b => load_questions env b).flatten) := by
  constructor
  · simp [load_questions, h1]
  · simp [load_questions_all, h2, List.map_append, List.flatten_append,
      load_questions, h1]

/-- Concrete reading environment whose middle sheet is unreadable. -/
def envBadMiddle : Env :=
  { sheetNamesResult := Except.ok ["题库一", "坏表", "题库三"],
    readSheet := fun b =>
      if b = "坏表" then Except.error ()
      else Except.ok (DF.canon [newQuestion 7 b "样题"]) }

/-- Witness for C6: the corrupt middle sheet contributes nothing and the
two healthy banks are still returned. -/
theorem c6_failed_sheet_skipped_witness :
    load_questions envBadMiddle "坏表" = [] ∧
    load_questions_all envBadMiddle =
      ((["题库一"].map fun b => load_questions envBadMiddle b).flatten ++
        (["题库三"].map fun b => load_questions envBadMiddle b).flatten) :=
  c6_failed_sheet_skipped envBadMiddle "坏表" ["题库一"] ["题库三"] rfl rfl

/-! ## Claim C10 -/

/-- C10: saving one bank rewrites the workbook from exactly the three
fixed bank names: the saved bank's sheet becomes the new frame, every
other fixed bank is written back with the content just read from it
(empty when unreadable), and any sheet whose name is not a fixed bank
name is absent after the save. -/
theorem c10_save_rewrites_workbook (wb : Workbook) (df : DF) (bank b n : String)
    (hbank : bank ∈ BANK_NAMES) (hb : b ∈ BANK_NAMES) (hbne : b ≠ bank)
    (hn : n ∉ BANK_NAMES) :
    (save_questions wb df bank).map Prod.fst = BANK_NAMES ∧
    (save_questions wb df bank).lookup bank = some df ∧
    (save_questions wb df bank).lookup b = some ((readSheetWb wb b).getD (DF.canon [])) ∧
    (save_questions wb df bank).lookup n = none := by
  have d12 : ("题库一" : String) ≠ "题库二" := by decide
  have d13 : ("题库一" : String) ≠ "题库三" := by decide
  have d21 : ("题库二" : String) ≠ "题库一" := by decide
  have d23 : ("题库二" : String) ≠ "题库三" := by decide
  have d31 : ("题库三" : String) ≠ "题库一" := by decide
  have d32 : ("题库三" : String) ≠ "题库二" := by decide
  simp only [BANK_NAMES, List.mem_cons, List.not_mem_nil, or_false] at hbank hb hn
  push_neg at hn
  obtain ⟨hn1, hn2, hn3⟩ := hn
  have e1 : (n == "题库一") = false := beq_eq_false_iff_ne.mpr hn1
  have e2 : (n == "题库二") = false := beq_eq_false_iff_ne.mpr hn2
  have e3 : (n == "题库三") = false := beq_eq_false_iff_ne.mpr hn3
  rcases hbank with rfl | rfl | rfl <;> rcases hb with rfl | rfl | rfl <;>
    first
      | exact absurd rfl hbne
      | refine ⟨?_, ?_, ?_, ?_⟩ <;>
          simp [save_questions, assocSet, readSheetWb, BANK_NAMES, List.lookup,
            hn1, hn2, hn3, e1, e2, e3, d12, d13, d21, d23, d31, d32]

/-- Witness for C10: saving `题库一` into a workbook holding a stray
sheet removes the stray sheet and rewrites exactly the three banks. -/
theorem c10_save_rewrites_workbook_witness :
    (save_questions [("杂表", DF.canon []), ("题库二", DF.canon [newQuestion 1 "题库二" "旧题"])]
        (DF.canon [newQuestion 1 "题库一" "新题"]) "题库一").map Prod.fst = BANK_NAMES ∧
    (save_questions [("杂表", DF.canon []), ("题库二", DF.canon [newQuestion 1 "题库二" "旧题"])]
        (DF.canon [newQuestion 1 "题库一" "新题"]) "题库一").lookup "题库一" =
      some (DF.canon [newQuestion 1 "题库一" "新题"]) ∧
    (save_questions [("杂表", DF.canon []), ("题库二", DF.canon [newQuestion 1 "题库二" "旧题"])]
        (DF.canon [newQuestion 1 "题库一" "新题"]) "题库一").lookup "题库二" =
      some ((readSheetWb [("杂表", DF.canon []), ("题库二", DF.canon [newQuestion 1 "题库二" "旧题"])]
        "题库二").getD (DF.canon [])) ∧
    (save_questions [("杂表", DF.canon []), ("题库二", DF.canon [newQuestion 1 "题库二" "旧题"])]
        (DF.canon [newQuestion 1 "题库一" "新题"]) "题库一").lookup "杂表" = none :=
  c10_save_rewrites_workbook
    [("杂表", DF.canon []), ("题库二", DF.canon [newQuestion 1 "题库二" "旧题"])]
    (DF.canon [newQuestion 1 "题库一" "新题"]) "题库一" "题库二" "杂表"
    (by decide) (by decide) (by decide) (by decide)

/-! ## Claim C8 -/

theorem insertSorted_perm (s : String) (l : List String) :
    List.Perm (insertSorted s l) (s :: l) := by
  induction l with
  | nil => exact List.Perm.refl _
  | cons t rest ih =>
    by_cases h : strLe s t = true
    · simp [insertSorted, h]
    · simp only [insertSorted, if_neg h]
      exact (List.Perm.cons t ih).trans (List.Perm.swap s t rest)

theorem sortStrings_perm (l : List String) : List.Perm (sortStrings l) l := by
  induction l with
  | nil => exact List.Perm.refl _
  | cons s rest ih =>
    exact (insertSorted_perm s (sortStrings rest)).trans (List.Perm.cons s ih)

theorem dedup_pair_perm (ks : List String) (d1 d2 : String) (hne : d1 ≠ d2)
    (h1 : d1 ∈ ks) (h2 : d2 ∈ ks) (hall : ∀ x ∈ ks, x = d1 ∨ x = d2) :
    List.Perm ks.dedup [d1, d2] := by
  rw [List.perm_iff_count]
  intro a
  by_cases ha1 : a = d1
  · subst ha1
    rw [List.count_eq_one_of_mem (List.nodup_dedup ks) (List.mem_dedup.mpr h1)]
    simp [List.count_cons, hne]
  · by_cases ha2 : a = d2
    · subst ha2
      rw [List.count_eq_one_of_mem (List.nodup_dedup ks) (List.mem_dedup.mpr h2)]
      simp [List.count_cons, Ne.symm hne]
    · have hmem : a ∉ ks.dedup := by
        rw [List.mem_dedup]
        intro hm
        rcases hall a hm with h | h
        · exact ha1 h
        · exact ha2 h
      rw [List.count_eq_zero_of_not_mem hmem]
      simp [List.count_cons, ha1, ha2]

theorem total_sales_split (d1 d2 : String) (hne : d1 ≠ d2) :
    ∀ df : List SalesRecord, (∀ r ∈ df, r.«所属部门» = d1 ∨ r.«所属部门» = d2) →
      total_sales df = deptRevenue df d1 + deptRevenue df d2 := by
  intro df
  induction df with
  | nil => intro _; simp [total_sales, deptRevenue]
  | cons r rest ih =>
    intro hall
    have hr := hall r (List.mem_cons_self r rest)
    have hrest := fun x hx => hall x (List.mem_cons_of_mem r hx)
    rcases hr with h | h
    · have h2 : ¬ r.«所属部门» = d2 := by rw [h]; exact hne
      simp only [total_sales, deptRevenue, List.filter_cons, List.map_cons,
        List.sum_cons] at ih ⊢
      rw [ih hrest]
      simp [h, h2, hne, Ne.symm hne]
      try ring
    · have h2 : ¬ r.«所属部门» = d1 := by rw [h]; exact Ne.symm hne
      simp only [total_sales, deptRevenue, List.filter_cons, List.map_cons,
        List.sum_cons] at ih ⊢
      rw [ih hrest]
      simp [h, h2, hne, Ne.symm hne]
      try ring

/-- C8: with exactly two departments present in the filtered rows, the
pie-chart group-by yields exactly two groups whose values are the two
departments' revenue subtotals, and the group values sum to the KPI
total-sales value over the same filtered rows. -/
theorem c8_department_partition (df : List SalesRecord) (d1 d2 : String)
    (hne : d1 ≠ d2)
    (hall : ∀ r ∈ df, r.«所属部门» = d1 ∨ r.«所属部门» = d2)
    (h1 : ∃ r ∈ df, r.«所属部门» = d1) (h2 : ∃ r ∈ df, r.«所属部门» = d2) :
    (department_sales df).length = 2 ∧
    List.Perm (department_sales df)
      [(d1, deptRevenue df d1), (d2, deptRevenue df d2)] ∧
    ((department_sales df).map Prod.snd).sum = total_sales df := by
  obtain ⟨r1, hr1, hd1⟩ := h1
  obtain ⟨r2, hr2, hd2⟩ := h2
  have hm1 : d1 ∈ df.map (fun r => r.«所属部门») := List.mem_map.mpr ⟨r1, hr1, hd1⟩
  have hm2 : d2 ∈ df.map (fun r => r.«所属部门») := List.mem_map.mpr ⟨r2, hr2, hd2⟩
  have hallm : ∀ x ∈ df.map (fun r => r.«所属部门»), x = d1 ∨ x = d2 := by
    intro x hx
    obtain ⟨r, hr, rfl⟩ := List.mem_map.mp hx
    exact hall r hr
  have hkperm : List.Perm (sortStrings (df.map fun r => r.«所属部门»).dedup) [d1, d2] :=
    (sortStrings_perm _).trans (dedup_pair_perm _ d1 d2 hne hm1 hm2 hallm)
  have hgperm : List.Perm (department_sales df)
      [(d1, deptRevenue df d1), (d2, deptRevenue df d2)] := by
    have hmapped := hkperm.map (fun d => (d, deptRevenue df d))
    simpa [department_sales] using hmapped
  refine ⟨?_, hgperm, ?_⟩
  · rw [hgperm.length_eq]; rfl
  · rw [(hgperm.map Prod.snd).sum_eq, total_sales_split d1 d2 hne df hall]
    simp

/-- Witness for C8 at a concrete three-row, two-department data set. -/
theorem c8_department_partition_witness :
    (department_sales [⟨1, "甲", 3, 4⟩, ⟨1, "乙", 2, 5⟩, ⟨2, "甲", 1, 1⟩]).length = 2 ∧
    List.Perm (department_sales [⟨1, "甲", 3, 4⟩, ⟨1, "乙", 2, 5⟩, ⟨2, "甲", 1, 1⟩])
      [("甲", deptRevenue [⟨1, "甲", 3, 4⟩, ⟨1, "乙", 2, 5⟩, ⟨2, "甲", 1, 1⟩] "甲"),
       ("乙", deptRevenue [⟨1, "甲", 3, 4⟩, ⟨1, "乙", 2, 5⟩, ⟨2, "甲", 1, 1⟩] "乙")] ∧
    ((department_sales [⟨1, "甲", 3, 4⟩, ⟨1, "乙", 2, 5⟩, ⟨2, "甲", 1, 1⟩]).map
        Prod.snd).sum =
      total_sales [⟨1, "甲", 3, 4⟩, ⟨1, "乙", 2, 5⟩, ⟨2, "甲", 1, 1⟩] :=
  c8_department_partition [⟨1, "甲", 3, 4⟩, ⟨1, "乙", 2, 5⟩, ⟨2, "甲", 1, 1⟩] "甲" "乙"
    (by decide) (by decide) (by decide) (by decide)

/-! ## Claim C3 -/

theorem docStep_not_question (bank : String) (st st2 : DocState) (p : Para)
    (hfalse : startsNewQuestion p = false)
    (hok : docStep bank st p = .ok st2) :
    st2.questions = st.questions := by
  unfold startsNewQuestion at hfalse
  by_cases hT : pyStrip p.text = ""
  · simp [docStep, hT] at hok
    rw [← hok]
  · have hQ : isQuestionText p.style (pyStrip p.text) = false := by
      simpa [hT] using hfalse
    by_cases hO : isOptionText p.style (pyStrip p.text) = true
    · cases hc : st.current with
      | none =>
        simp [docStep, hT, hQ, hO, hc] at hok
        rw [← hok]
      | some cq2 =>
        cases hp : parseOptionLine (pyStrip p.text) with
        | noMatch =>
          simp [docStep, hT, hQ, hO, hc, hp] at hok
          rw [← hok]
        | indexError =>
          simp [docStep, hT, hQ, hO, hc, hp] at hok
        | parsed l t2 sc =>
          simp [docStep, hT, hQ, hO, hc, hp] at hok
          rw [← hok]
    · simp [docStep, hT, hQ, hO] at hok
      rw [← hok]

theorem docStep_question (bank : String) (st : DocState) (p : Para)
    (htrue : startsNewQuestion p = true) :
    docStep bank st p =
      .ok { questions := flushIfComplete st,
            current := some (newQuestion (((flushIfComplete st).length : Int) + 1) bank
              (pyStrip p.text)),
            optionCount := 0 } := by
  unfold startsNewQuestion at htrue
  rw [Bool.and_eq_true] at htrue
  have hT : pyStrip p.text ≠ "" := of_decide_eq_true htrue.1
  have hQ : isQuestionText p.style (pyStrip p.text) = true := htrue.2
  simp [docStep, hT, hQ]

theorem flush_lt_four (st : DocState) (h : st.optionCount < 4) :
    flushIfComplete st = st.questions := by
  unfold flushIfComplete
  cases st.current with
  | none => rfl
  | some cq => simp [Nat.not_le.mpr h]

theorem flush_none (st : DocState) (h : st.current = none) :
    flushIfComplete st = st.questions := by
  simp [flushIfComplete, h]

theorem flush_some_ge_four (st : DocState) (cq : Question)
    (h1 : st.current = some cq) (h2 : 4 ≤ st.optionCount) :
    flushIfComplete st = st.questions ++ [cq] := by
  simp [flushIfComplete, h1, h2]

/-- Counterexample to C3 as stated: the first block of `docAbortExample`
collected exactly 4 option paragraphs before the next question started
(the document holding that block alone imports as `docAbortQuestion`),
yet on the whole document the importer's output is empty rather than
containing that block — the bracket-less option line of the second block
raises `IndexError` in the score-extraction loop and the outer handler
returns the empty list for the entire document. -/
theorem c3_abort_counterexample :
    parse_questions_from_doc docAbortPrefix "题库一" = [docAbortQuestion] ∧
    parse_questions_from_doc docAbortExample "题库一" = [] := by decide

/-- C3 (amended): on the steps the importer completes without raising, a
question block reaches the output only with at least 4 collected option
paragraphs — a non-question paragraph never changes the output list, and
a new question (or the end of the document) discards an accumulator
holding fewer than 4 options and appends one holding at least 4; the
concrete all-bracketed `docExample` drops its 3-option block and imports
its exactly-4-option block; but a matched option line without a
bracketed value raises `IndexError`, aborting the whole import to the
empty output (`docAbortExample`). -/
theorem c3_four_option_threshold (st st2 : DocState) (p : Para) (bank : String)
    (cq : Question) :
    (startsNewQuestion p = false → docStep bank st p = .ok st2 →
      st2.questions = st.questions) ∧
    (startsNewQuestion p = true → st.optionCount < 4 → docStep bank st p = .ok st2 →
      st2.questions = st.questions) ∧
    (startsNewQuestion p = true → st.current = none → docStep bank st p = .ok st2 →
      st2.questions = st.questions) ∧
    (startsNewQuestion p = true → st.current = some cq → 4 ≤ st.optionCount →
      docStep bank st p = .ok st2 → st2.questions = st.questions ++ [cq]) ∧
    (st.optionCount < 4 → flushIfComplete st = st.questions) ∧
    (st.current = none → flushIfComplete st = st.questions) ∧
    (st.current = some cq → 4 ≤ st.optionCount →
      flushIfComplete st = st.questions ++ [cq]) ∧
    parse_questions_from_doc docExample "题库一" = [docExampleQuestion] ∧
    parse_questions_from_doc docAbortExample "题库一" = [] := by
  refine ⟨docStep_not_question bank st st2 p, ?_, ?_, ?_,
    flush_lt_four st, flush_none st, flush_some_ge_four st cq, by decide, by decide⟩
  · intro ht hc hok
    rw [docStep_question bank st p ht] at hok
    rw [← Except.ok.inj hok]
    exact flush_lt_four st hc
  · intro ht hc hok
    rw [docStep_question bank st p ht] at hok
    rw [← Except.ok.inj hok]
    exact flush_none st hc
  · intro ht h1 h2 hok
    rw [docStep_question bank st p ht] at hok
    rw [← Except.ok.inj hok]
    exact flush_some_ge_four st cq h1 h2

/-- Witness for C3: a new question discards a 3-option accumulator,
appends a 4-option one, and the concrete documents import exactly the
complete block (all-bracketed case) or nothing (aborting case). -/
theorem c3_four_option_threshold_witness :
    (⟨[], some (newQuestion 1 "题库一" "第二道题目完整题干文字说明"), 0⟩ :
        DocState).questions =
      (⟨[], some (newQuestion 1 "题库一" "第一道题目完整题干文字说明"), 3⟩ :
        DocState).questions ∧
    (⟨[newQuestion 1 "题库一" "第一道题目完整题干文字说明"],
        some (newQuestion 2 "题库一" "第二道题目完整题干文字说明"), 0⟩ :
        DocState).questions =
      (⟨[], some (newQuestion 1 "题库一" "第一道题目完整题干文字说明"), 4⟩ :
          DocState).questions ++
        [newQuestion 1 "题库一" "第一道题目完整题干文字说明"] ∧
    flushIfComplete ⟨[], some (newQuestion 1 "题库一" "第一道题目完整题干文字说明"), 4⟩ =
      [] ++ [newQuestion 1 "题库一" "第一道题目完整题干文字说明"] ∧
    parse_questions_from_doc docExample "题库一" = [docExampleQuestion] ∧
    parse_questions_from_doc docAbortExample "题库一" = [] := by
  refine ⟨?_, ?_, ?_, ?_, ?_⟩
  · exact (c3_four_option_threshold
      ⟨[], some (newQuestion 1 "题库一" "第一道题目完整题干文字说明"), 3⟩
      ⟨[], some (newQuestion 1 "题库一" "第二道题目完整题干文字说明"), 0⟩
      ⟨"Heading 1", "第二道题目完整题干文字说明"⟩ "题库一"
      (newQuestion 1 "题库一" "第一道题目完整题干文字说明")).2.1
      (by decide) (by decide) rfl
  · exact (c3_four_option_threshold
      ⟨[], some (newQuestion 1 "题库一" "第一道题目完整题干文字说明"), 4⟩
      ⟨[newQuestion 1 "题库一" "第一道题目完整题干文字说明"],
        some (newQuestion 2 "题库一" "第二道题目完整题干文字说明"), 0⟩
      ⟨"Heading 1", "第二道题目完整题干文字说明"⟩ "题库一"
      (newQuestion 1 "题库一" "第一道题目完整题干文字说明")).2.2.2.1
      (by decide) rfl (by decide) rfl
  · exact (c3_four_option_threshold
      ⟨[], some (newQuestion 1 "题库一" "第一道题目完整题干文字说明"), 4⟩
      ⟨[], none, 0⟩ ⟨"Heading 1", "第二道题目完整题干文字说明"⟩ "题库一"
      (newQuestion 1 "题库一" "第一道题目完整题干文字说明")).2.2.2.2.2.2.1
      rfl (by decide)
  · exact (c3_four_option_threshold ⟨[], none, 0⟩ ⟨[], none, 0⟩ ⟨"", ""⟩ "题库一"
      (newQuestion 1 "题库一" "第一道题目完整题干文字说明")).2.2.2.2.2.2.2.1
  · exact (c3_four_option_threshold ⟨[], none, 0⟩ ⟨[], none, 0⟩ ⟨"", ""⟩ "题库一"
      (newQuestion 1 "题库一" "第一道题目完整题干文字说明")).2.2.2.2.2.2.2.2

/-! ## Claim C2: lemmas about the option-line matcher -/

theorem matchBracket_ne (oC cC : Char) (f : Bool) (c : Char) (t : List Char)
    (h : c ≠ oC) : matchBracket oC cC f (c :: t) = none := by
  simp [matchBracket, h]

theorem firstBracket_not_open (c : Char) (t : List Char)
    (h1 : c ≠ '（') (h2 : c ≠ '(') : firstBracket (c :: t) = none := by
  simp [firstBracket, matchBracket, h1, h2]

theorem spacesOnly_cons_false (c : Char) (t : List Char) (h : isSpaceChar c = false) :
    spacesOnly (c :: t) = false := by
  simp [spacesOnly, h]

theorem spacesOnly_append_false (xs ys : List Char) (h : spacesOnly ys = false) :
    spacesOnly (xs ++ ys) = false := by
  simp [spacesOnly, List.all_append] at h ⊢
  exact fun _ => h

theorem tailScore_not_open (c : Char) (t : List Char)
    (h1 : c ≠ '（') (h2 : c ≠ '(') (hsp : spacesOnly (c :: t) = false) :
    tailScore (c :: t) = none := by
  simp [tailScore, firstBracket_not_open c t h1 h2, hsp]

theorem findBody_cons (acc : List Char) (c : Char) (t : List Char) :
    findBody acc (c :: t) =
      match tailScore t with
      | some sc => some (acc ++ [c], sc)
      | none => findBody (acc ++ [c]) t := rfl

theorem findBody_through_body (br : List Char) (r : Option Nat)
    (hsp : spacesOnly br = false) (hts : tailScore br = some r) :
    ∀ (body : List Char), body ≠ [] →
      (∀ c ∈ body, c ≠ '（' ∧ c ≠ '(') →
      ∀ acc, findBody acc (body ++ br) = some (acc ++ body, r) := by
  intro body
  induction body with
  | nil => intro h; exact absurd rfl h
  | cons c rest ih =>
    intro _ hopen acc
    cases rest with
    | nil =>
      rw [show ([c] : List Char) ++ br = c :: br from rfl, findBody_cons, hts]
    | cons d rest2 =>
      have hd := hopen d (by simp)
      have hsp2 : spacesOnly (d :: (rest2 ++ br)) = false := by
        have := spacesOnly_append_false (d :: rest2) br hsp
        simpa using this
      have hts2 : tailScore (d :: (rest2 ++ br)) = none :=
        tailScore_not_open d (rest2 ++ br) hd.1 hd.2 hsp2
      rw [show (c :: d :: rest2) ++ br = c :: (d :: (rest2 ++ br)) from rfl,
        findBody_cons, hts2]
      have hih := ih (by simp) (fun x hx => hopen x (by simp [hx])) (acc ++ [c])
      rw [show d :: (rest2 ++ br) = (d :: rest2) ++ br from rfl, hih]
      simp

theorem takeWhile_all_append (p : Char → Bool) :
    ∀ (xs : List Char) (y : Char) (ys : List Char),
      (∀ c ∈ xs, p c = true) → p y = false →
      (xs ++ y :: ys).takeWhile p = xs ∧ (xs ++ y :: ys).dropWhile p = y :: ys := by
  intro xs
  induction xs with
  | nil => intro y ys _ hy; simp [List.takeWhile_cons, List.dropWhile_cons, hy]
  | cons x xs2 ih =>
    intro y ys hx hy
    have hpx : p x = true := hx x (by simp)
    have h2 := ih y ys (fun c hc => hx c (by simp [hc])) hy
    simp [List.takeWhile_cons, List.dropWhile_cons, hpx, h2.1, h2.2]

theorem tailScore_fwFen (ds : List Char) (hne : ds ≠ [])
    (hdig : ∀ c ∈ ds, c.isDigit = true) :
    tailScore (fwFenBracket ds) = some (some (digitsToNat ds)) := by
  have hsplit := takeWhile_all_append Char.isDigit ds '分' ['）'] hdig (by decide)
  have hm : matchBracket '（' '）' true ('（' :: (ds ++ ['分', '）'])) =
      some (digitsToNat ds, []) := by
    simp only [matchBracket, if_pos rfl]
    rw [hsplit.1, hsplit.2]
    simp [hne]
  simp [tailScore, firstBracket, fwFenBracket, hm, spacesOnly]

theorem tailScore_asFen (ds : List Char) (hne : ds ≠ [])
    (hdig : ∀ c ∈ ds, c.isDigit = true) :
    tailScore (asFenBracket ds) = some (some (digitsToNat ds)) := by
  have hsplit := takeWhile_all_append Char.isDigit ds '分' [')'] hdig (by decide)
  have hm1 : matchBracket '（' '）' true ('(' :: (ds ++ ['分', ')'])) = none :=
    matchBracket_ne _ _ _ _ _ (by decide)
  have hm2 : matchBracket '(' ')' true ('(' :: (ds ++ ['分', ')'])) =
      some (digitsToNat ds, []) := by
    simp only [matchBracket, if_pos rfl]
    rw [hsplit.1, hsplit.2]
    simp [hne]
  simp [tailScore, firstBracket, asFenBracket, hm1, hm2, spacesOnly]

theorem tailScore_fw (ds : List Char) (hne : ds ≠ [])
    (hdig : ∀ c ∈ ds, c.isDigit = true) :
    tailScore (fwBracket ds) = some (some (digitsToNat ds)) := by
  have hsplit := takeWhile_all_append Char.isDigit ds '）' [] hdig (by decide)
  have hm1 : matchBracket '（' '）' true ('（' :: (ds ++ ['）'])) = none := by
    simp only [matchBracket, if_pos rfl]
    rw [hsplit.1, hsplit.2]
    simp [hne]
  have hm2 : matchBracket '(' ')' true ('（' :: (ds ++ ['）'])) = none :=
    matchBracket_ne _ _ _ _ _ (by decide)
  have hm3 : matchBracket '（' '）' false ('（' :: (ds ++ ['）'])) =
      some (digitsToNat ds, []) := by
    simp only [matchBracket, if_pos rfl]
    rw [hsplit.1, hsplit.2]
    simp [hne]
  simp [tailScore, firstBracket, fwBracket, hm1, hm2, hm3, spacesOnly]

theorem tailScore_as (ds : List Char) (hne : ds ≠ [])
    (hdig : ∀ c ∈ ds, c.isDigit = true) :
    tailScore (asBracket ds) = some (some (digitsToNat ds)) := by
  have hsplit := takeWhile_all_append Char.isDigit ds ')' [] hdig (by decide)
  have hm1 : matchBracket '（' '）' true ('(' :: (ds ++ [')'])) = none :=
    matchBracket_ne _ _ _ _ _ (by decide)
  have hm2 : matchBracket '(' ')' true ('(' :: (ds ++ [')'])) = none := by
    simp only [matchBracket, if_pos rfl]
    rw [hsplit.1, hsplit.2]
    simp [hne]
  have hm3 : matchBracket '（' '）' false ('(' :: (ds ++ [')'])) = none :=
    matchBracket_ne _ _ _ _ _ (by decide)
  have hm4 : matchBracket '(' ')' false ('(' :: (ds ++ [')'])) =
      some (digitsToNat ds, []) := by
    simp only [matchBracket, if_pos rfl]
    rw [hsplit.1, hsplit.2]
    simp [hne]
  simp [tailScore, firstBracket, asBracket, hm1, hm2, hm3, hm4, spacesOnly]

theorem spacesOnly_false_of_mem (x : Char) (l : List Char) (hx : x ∈ l)
    (h : isSpaceChar x = false) : spacesOnly l = false := by
  cases hb : spacesOnly l with
  | false => rfl
  | true =>
    have hpx := List.all_eq_true.mp hb x hx
    rw [h] at hpx
    exact absurd hpx (by simp)

theorem getLastD_cons_cons (a b d1 d2 : Char) (t : List Char) :
    (a :: b :: t).getLastD d1 = (b :: t).getLastD d2 := rfl

theorem getLastD_mem : ∀ (t : List Char) (a d : Char), (a :: t).getLastD d ∈ a :: t
  | [], a, d => by simp
  | b :: t, a, d => by
    have h := getLastD_mem t b a
    rw [getLastD_cons_cons a b d a t]
    exact List.mem_cons_of_mem a h

theorem findBody_no_bracket (body : List Char) : body ≠ [] →
    (∀ c ∈ body, c ≠ '（' ∧ c ≠ '(') →
    isSpaceChar (body.getLastD 'A') = false →
    ∀ acc, findBody acc body = some (acc ++ body, none) := by
  induction body with
  | nil => intro h; exact absurd rfl h
  | cons c rest ih =>
    intro _ hopen hlast acc
    cases rest with
    | nil => rw [findBody_cons]; rfl
    | cons d rest2 =>
      have hd := hopen d (by simp)
      have hlast2 : isSpaceChar ((d :: rest2).getLastD 'A') = false := by
        rw [getLastD_cons_cons c d 'A' 'A' rest2] at hlast
        exact hlast
      have hsp : spacesOnly (d :: rest2) = false :=
        spacesOnly_false_of_mem _ _ (getLastD_mem rest2 d 'A') hlast2
      have hts : tailScore (d :: rest2) = none :=
        tailScore_not_open d rest2 hd.1 hd.2 hsp
      rw [findBody_cons, hts,
        ih (by simp) (fun x hx2 => hopen x (by simp [hx2])) hlast2 (acc ++ [c])]
      simp

theorem parseOptionChars_core (letter sep : Char) (body br : List Char) (n : Nat)
    (hcond : ((letter = 'A' || letter = 'B' || letter = 'C' || letter = 'D') &&
      (sep = '.' || sep = '、')) = true)
    (hbody : body ≠ [])
    (hopen : ∀ c ∈ body, c ≠ '（' ∧ c ≠ '(')
    (hhead : isSpaceChar (body.headD 'A') = false)
    (hsp : spacesOnly br = false)
    (hts : tailScore br = some (some n)) :
    parseOptionChars (letter :: sep :: (body ++ br)) =
      .parsed letter (pyStripList body) n := by
  cases body with
  | nil => exact absurd rfl hbody
  | cons b body2 =>
    have hb : isSpaceChar b = false := by simpa using hhead
    have hdrop : ((b :: body2) ++ br).dropWhile isSpaceChar = b :: (body2 ++ br) := by
      simp [List.dropWhile_cons, hb]
    have hfind := findBody_through_body br (some n) hsp hts (b :: body2) (by simp) hopen []
    simp only [List.cons_append] at hfind hdrop ⊢
    simp [parseOptionChars, hcond, hdrop, hfind]

theorem parseOptionChars_noBracket_raises (letter sep : Char) (body : List Char)
    (hcond : ((letter = 'A' || letter = 'B' || letter = 'C' || letter = 'D') &&
      (sep = '.' || sep = '、')) = true)
    (hbody : body ≠ [])
    (hopen : ∀ c ∈ body, c ≠ '（' ∧ c ≠ '(')
    (hhead : isSpaceChar (body.headD 'A') = false)
    (hlast : isSpaceChar (body.getLastD 'A') = false) :
    parseOptionChars (letter :: sep :: body) = .indexError := by
  cases body with
  | nil => exact absurd rfl hbody
  | cons b body2 =>
    have hb : isSpaceChar b = false := by simpa using hhead
    have hdrop : (b :: body2).dropWhile isSpaceChar = b :: body2 := by
      simp [List.dropWhile_cons, hb]
    have hfind := findBody_no_bracket (b :: body2) (by simp) hopen hlast []
    simp [parseOptionChars, hcond, hdrop, hfind]

/-- General characterization of the matcher on an option line
`<letter><sep><body>[<bracket>]` whose body does not itself contain an
opening bracket: any of the four bracket notations `（N分）`, `(N分)`,
`（N）`, `(N)` yields its value, and the absence of a bracketed value
reaches `match.group(7)` and raises. -/
theorem optionLine_bracket_extraction (letter sep : Char) (body ds : List Char)
    (hletter : letter = 'A' ∨ letter = 'B' ∨ letter = 'C' ∨ letter = 'D')
    (hsep : sep = '.' ∨ sep = '、')
    (hbody : body ≠ [])
    (hopen : ∀ c ∈ body, c ≠ '（' ∧ c ≠ '(')
    (hhead : isSpaceChar (body.headD 'A') = false)
    (hlast : isSpaceChar (body.getLastD 'A') = false)
    (hds : ds ≠ []) (hdig : ∀ c ∈ ds, c.isDigit = true) :
    parseOptionChars (letter :: sep :: (body ++ fwFenBracket ds)) =
      .parsed letter (pyStripList body) (digitsToNat ds) ∧
    parseOptionChars (letter :: sep :: (body ++ asFenBracket ds)) =
      .parsed letter (pyStripList body) (digitsToNat ds) ∧
    parseOptionChars (letter :: sep :: (body ++ fwBracket ds)) =
      .parsed letter (pyStripList body) (digitsToNat ds) ∧
    parseOptionChars (letter :: sep :: (body ++ asBracket ds)) =
      .parsed letter (pyStripList body) (digitsToNat ds) ∧
    parseOptionChars (letter :: sep :: body) = .indexError := by
  have hcond : ((letter = 'A' || letter = 'B' || letter = 'C' || letter = 'D') &&
      (sep = '.' || sep = '、')) = true := by
    rcases hletter with rfl | rfl | rfl | rfl <;> rcases hsep with rfl | rfl <;> decide
  have hsp1 : spacesOnly (fwFenBracket ds) = false :=
    spacesOnly_cons_false '（' (ds ++ ['分', '）']) (by decide)
  have hsp2 : spacesOnly (asFenBracket ds) = false :=
    spacesOnly_cons_false '(' (ds ++ ['分', ')']) (by decide)
  have hsp3 : spacesOnly (fwBracket ds) = false :=
    spacesOnly_cons_false '（' (ds ++ ['）']) (by decide)
  have hsp4 : spacesOnly (asBracket ds) = false :=
    spacesOnly_cons_false '(' (ds ++ [')']) (by decide)
  refine ⟨?_, ?_, ?_, ?_, ?_⟩
  · exact parseOptionChars_core letter sep body (fwFenBracket ds) (digitsToNat ds)
      hcond hbody hopen hhead hsp1 (tailScore_fwFen ds hds hdig)
  · exact parseOptionChars_core letter sep body (asFenBracket ds) (digitsToNat ds)
      hcond hbody hopen hhead hsp2 (tailScore_asFen ds hds hdig)
  · exact parseOptionChars_core letter sep body (fwBracket ds) (digitsToNat ds)
      hcond hbody hopen hhead hsp3 (tailScore_fw ds hds hdig)
  · exact parseOptionChars_core letter sep body (asBracket ds) (digitsToNat ds)
      hcond hbody hopen hhead hsp4 (tailScore_as ds hds hdig)
  · exact parseOptionChars_noBracket_raises letter sep body hcond hbody hopen hhead hlast

/-- C2 (code bug): the bracketed notations do extract their values — the
spec's examples `A. 方案一（5分）`, `B. 方案二(3分)` and `D. 方案四（1）`
parse to scores 5, 3 and 1 — but an option line without a bracketed
value does not parse to score 0 as claimed: the score loop
`for i in range(3, 8)` indexes the seventh group of the six-group
pattern, so `C. 方案三` raises `IndexError`, and importing a document
that contains such a line returns the empty list instead of the parsed
questions. -/
theorem c2_no_bracket_raises :
    parseOptionLine "A. 方案一（5分）" = .parsed 'A' "方案一".data 5 ∧
    parseOptionLine "B. 方案二(3分)" = .parsed 'B' "方案二".data 3 ∧
    parseOptionLine "D. 方案四（1）" = .parsed 'D' "方案四".data 1 ∧
    parseOptionLine "C. 方案三" = .indexError ∧
    parse_questions_from_doc
      [⟨"Heading 1", "第一道题目完整题干文字说明"⟩, ⟨"", "C. 方案三"⟩] "题库一" = [] := by
  decide

end Interview
